/-
Verification of the gotask kanban-board application (gotask.go).

The embedding below mirrors the Go source.  `Task`, `Column`, `KanbanBoard`
and `model` follow the struct definitions; `update` is a shallow embedding of
the `tea.KeyMsg` branch of `model.Update`.  External effects are made
explicit:

* `saveBoard` is an external disk write; each step takes a `saveOk : Bool`
  oracle describing whether that write would succeed (at most one save
  happens per key event), and the step result records in `saved` whether
  `saveBoard` was invoked at all.  A failing save sets `m.err`, exactly as
  `if err := m.saveBoard(); err != nil { m.err = err }` does.
* `time.Now()` is an external clock; each step takes the current timestamp
  `now` as a parameter (timestamps are abstracted to integers).
* The bubbles `textinput` component is external; we model the part the
  state machine depends on, its string value: a focused text input extends
  its value by any single-character key and is left unchanged here by other
  keys (cursor position, placeholder and styling are render-only).
* Viewports (`m.viewports`, `updateViewportContent`) and `View` are
  render-only: they never influence the board, the cursor or the mode, so
  they are omitted from the state.
-/
import Mathlib

namespace Gotask

/-- `Task` struct: id, title, description, created_at (timestamp abstracted
to an integer). -/
structure Task where
  id : Int
  title : String
  description : String
  createdAt : Int
  deriving Repr, DecidableEq

/-- `Column` struct: id, title, ordered task list. -/
structure Column where
  id : Int
  title : String
  tasks : List Task
  deriving Repr, DecidableEq

/-- `KanbanBoard` struct: the ordered list of columns. -/
structure KanbanBoard where
  columns : List Column
  deriving Repr, DecidableEq

/-- `InputMode`: vim-like sub-mode of text entry (`NormalMode | InsertMode`). -/
inductive InputMode where
  | NormalMode
  | InsertMode
  deriving Repr, DecidableEq

/-- `DialogType`: which dialog is active (`NoDialog | DeleteDialog | EditDialog`). -/
inductive DialogType where
  | NoDialog
  | DeleteDialog
  | EditDialog
  deriving Repr, DecidableEq

/-- The command returned to the bubbletea runtime: `nil`, `tea.Quit` or
`textinput.Blink`.  Only `quit` terminates the program. -/
inductive Cmd where
  | none
  | quit
  | blink
  deriving Repr, DecidableEq

/-- The `model` struct, restricted to the fields the state machine reads or
writes.  `textValue` is the value held by the `textinput` component;
`editingTask` is the Go field `editingTask *Task`, a pointer into
`board.Columns[c].Tasks[t]`: while a dialog is open no other transition can
mutate the task lists, so the pointer is equivalent to the pair of indices
`(c, t)` captured when `e` was pressed, resolved again at commit.
`err` records whether a non-nil error is currently displayed. -/
structure model where
  board : KanbanBoard
  cursorColumn : Int
  cursorTask : Int
  textValue : String
  inputMode : Bool
  inputState : InputMode
  err : Bool
  lastID : Int
  showHelp : Bool
  dialogType : DialogType
  editingTask : Option (Nat × Nat)
  deriving Repr, DecidableEq

/-- Result of one `Update` step: the new model, the returned command, and
whether `saveBoard` was invoked during the step. -/
structure StepResult where
  model : model
  cmd : Cmd
  saved : Bool
  deriving Repr, DecidableEq

/-- `m.board.Columns[i]` (callers guarantee `i` in range; the default is
never reached under the cursor invariant). -/
def getCol (b : KanbanBoard) (i : Nat) : Column :=
  b.columns.getD i ⟨0, "", []⟩

/-- `m.board.Columns[i] = c` (writing through the Go pointer `&m.board.Columns[i]`). -/
def setCol (b : KanbanBoard) (i : Nat) (c : Column) : KanbanBoard :=
  ⟨b.columns.set i c⟩

/-- `task := col.Tasks[t]` with an unreachable default. -/
def getTask (c : Column) (t : Nat) : Task :=
  c.tasks.getD t ⟨0, "", "", 0⟩

/-- Model of the external bubbles textinput component's value: a focused
input appends any single-character key to its value; named keys
(`"up"`, `"backspace"`, ...) are abstracted as leaving the value unchanged
(none of the verified properties depend on them). -/
def textInputUpdate (v : String) (key : String) : String :=
  if key.length = 1 then v ++ key else v

/-- `if err := m.saveBoard(); err != nil { m.err = err }`. -/
def afterSave (saveOk : Bool) (m : model) : model :=
  if saveOk then m else { m with err := true }

/-- The `DeleteDialog` branch of `Update` (gotask.go lines 240-264). -/
def updateDelete (saveOk : Bool) (m : model) (key : String) : StepResult :=
  if key = "y" ∨ key = "Y" then
    let col := getCol m.board m.cursorColumn.toNat
    if col.tasks.length > 0 then
      let tasks' := col.tasks.eraseIdx m.cursorTask.toNat
      let m := { m with board := setCol m.board m.cursorColumn.toNat { col with tasks := tasks' } }
      let m := if m.cursorTask ≥ (tasks'.length : Int) ∧ m.cursorTask > 0 then
        { m with cursorTask := m.cursorTask - 1 } else m
      let m := afterSave saveOk m
      ⟨{ m with dialogType := .NoDialog }, .none, true⟩
    else
      ⟨{ m with dialogType := .NoDialog }, .none, false⟩
  else if key = "n" ∨ key = "N" ∨ key = "esc" ∨ key = "q" ∨ key = "ctrl+c" then
    ⟨{ m with dialogType := .NoDialog }, .none, false⟩
  else
    ⟨m, .none, false⟩

/-- The `enter` commit shared verbatim by the NormalMode and InsertMode
input branches (gotask.go lines 286-320 and 343-377): an edit dialog writes
the buffer to the bound task; otherwise a non-empty buffer adds a task and
an empty buffer just leaves input mode. -/
def commitEnter (saveOk : Bool) (now : Int) (m : model) : StepResult :=
  match m.dialogType, m.editingTask with
  | .EditDialog, some (c, t) =>
    let col := getCol m.board c
    let task := getTask col t
    let board' := setCol m.board c { col with tasks := col.tasks.set t { task with title := m.textValue } }
    let m := { m with board := board', inputMode := false, inputState := .NormalMode, editingTask := Option.none, dialogType := .NoDialog }
    ⟨afterSave saveOk m, .none, true⟩
  | _, _ =>
    if m.textValue ≠ "" then
      let newTask : Task := ⟨m.lastID + 1, m.textValue, "", now⟩
      let col := getCol m.board m.cursorColumn.toNat
      let board' := setCol m.board m.cursorColumn.toNat { col with tasks := col.tasks ++ [newTask] }
      let m := { m with lastID := m.lastID + 1, board := board', textValue := "", inputMode := false, inputState := .NormalMode }
      ⟨afterSave saveOk m, .none, true⟩
    else
      ⟨{ m with inputMode := false, inputState := .NormalMode }, .none, false⟩

/-- The `m.inputMode` branch of `Update` (gotask.go lines 267-390):
vim-style NormalMode commands, InsertMode text entry, and the fall-through
that forwards unmatched keys to the text input. -/
def updateInput (saveOk : Bool) (now : Int) (m : model) (key : String) : StepResult :=
  match m.inputState with
  | .NormalMode =>
    if key = "i" then
      ⟨{ m with inputState := .InsertMode }, .none, false⟩
    else if key = "esc" ∨ key = "ctrl+c" then
      ⟨{ m with inputMode := false, textValue := "", inputState := .NormalMode, editingTask := Option.none, dialogType := .NoDialog }, .none, false⟩
    else if key = "enter" then
      commitEnter saveOk now m
    else if key = "q" then
      if saveOk then ⟨m, .quit, true⟩ else ⟨{ m with err := true }, .none, true⟩
    else if key = "?" then
      ⟨{ m with showHelp := !m.showHelp }, .none, false⟩
    else
      ⟨{ m with textValue := textInputUpdate m.textValue key }, .none, false⟩
  | .InsertMode =>
    if key = "esc" then
      ⟨{ m with inputState := .NormalMode }, .none, false⟩
    else if key = "enter" then
      commitEnter saveOk now m
    else
      ⟨{ m with textValue := textInputUpdate m.textValue key }, .none, false⟩

/-- The browsing branch of `Update` (gotask.go lines 391-533): quit, help,
add/edit/delete entry, cursor navigation and task movement. -/
def updateBrowse (saveOk : Bool) (m : model) (key : String) : StepResult :=
  if key = "ctrl+c" ∨ key = "q" then
    if saveOk then ⟨m, .quit, true⟩ else ⟨{ m with err := true }, .none, true⟩
  else if key = "?" then
    ⟨{ m with showHelp := !m.showHelp }, .none, false⟩
  else if key = "a" then
    ⟨{ m with inputMode := true, inputState := .InsertMode, textValue := "" }, .blink, false⟩
  else if key = "n" then
    ⟨{ m with inputMode := true, inputState := .NormalMode, textValue := "" }, .blink, false⟩
  else if key = "e" then
    if m.board.columns.length > 0 then
      let col := getCol m.board m.cursorColumn.toNat
      if col.tasks.length > 0 then
        ⟨{ m with dialogType := .EditDialog, editingTask := some (m.cursorColumn.toNat, m.cursorTask.toNat), textValue := (getTask col m.cursorTask.toNat).title, inputMode := true, inputState := .InsertMode }, .blink, false⟩
      else ⟨m, .none, false⟩
    else ⟨m, .none, false⟩
  else if key = "d" then
    if m.board.columns.length > 0 then
      let col := getCol m.board m.cursorColumn.toNat
      if col.tasks.length > 0 then
        ⟨{ m with dialogType := .DeleteDialog }, .none, false⟩
      else ⟨m, .none, false⟩
    else ⟨m, .none, false⟩
  else if key = "up" ∨ key = "k" then
    let col := getCol m.board m.cursorColumn.toNat
    if col.tasks.length > 0 then
      ⟨{ m with cursorTask := max 0 (m.cursorTask - 1) }, .none, false⟩
    else ⟨m, .none, false⟩
  else if key = "down" ∨ key = "j" then
    let col := getCol m.board m.cursorColumn.toNat
    if col.tasks.length > 0 then
      ⟨{ m with cursorTask := min ((col.tasks.length : Int) - 1) (m.cursorTask + 1) }, .none, false⟩
    else ⟨m, .none, false⟩
  else if key = "left" ∨ key = "h" then
    if m.cursorColumn > 0 then
      ⟨{ m with cursorColumn := m.cursorColumn - 1, cursorTask := 0 }, .none, false⟩
    else ⟨m, .none, false⟩
  else if key = "right" ∨ key = "l" then
    if m.cursorColumn < (m.board.columns.length : Int) - 1 then
      ⟨{ m with cursorColumn := m.cursorColumn + 1, cursorTask := 0 }, .none, false⟩
    else ⟨m, .none, false⟩
  else if key = "[" ∨ key = "\x7b" then
    if m.cursorColumn > 0 then
      let srcCol := getCol m.board m.cursorColumn.toNat
      if srcCol.tasks.length > 0 then
        let destCol := getCol m.board (m.cursorColumn.toNat - 1)
        let task := getTask srcCol m.cursorTask.toNat
        let tasks' := srcCol.tasks.eraseIdx m.cursorTask.toNat
        let m := { m with board := setCol m.board m.cursorColumn.toNat { srcCol with tasks := tasks' } }
        let m := if m.cursorTask ≥ (tasks'.length : Int) ∧ m.cursorTask > 0 then
          { m with cursorTask := m.cursorTask - 1 } else m
        let destTasks := destCol.tasks ++ [task]
        let m := { m with board := setCol m.board (m.cursorColumn.toNat - 1) { destCol with tasks := destTasks } }
        let m := { m with cursorColumn := m.cursorColumn - 1, cursorTask := (destTasks.length : Int) - 1 }
        ⟨afterSave saveOk m, .none, true⟩
      else ⟨m, .none, false⟩
    else ⟨m, .none, false⟩
  else if key = "]" ∨ key = "\x7d" then
    if m.cursorColumn < (m.board.columns.length : Int) - 1 then
      let srcCol := getCol m.board m.cursorColumn.toNat
      if srcCol.tasks.length > 0 then
        let destCol := getCol m.board (m.cursorColumn.toNat + 1)
        let task := getTask srcCol m.cursorTask.toNat
        let tasks' := srcCol.tasks.eraseIdx m.cursorTask.toNat
        let m := { m with board := setCol m.board m.cursorColumn.toNat { srcCol with tasks := tasks' } }
        let m := if m.cursorTask ≥ (tasks'.length : Int) ∧ m.cursorTask > 0 then
          { m with cursorTask := m.cursorTask - 1 } else m
        let destTasks := destCol.tasks ++ [task]
        let m := { m with board := setCol m.board (m.cursorColumn.toNat + 1) { destCol with tasks := destTasks } }
        let m := { m with cursorColumn := m.cursorColumn + 1, cursorTask := (destTasks.length : Int) - 1 }
        ⟨afterSave saveOk m, .none, true⟩
      else ⟨m, .none, false⟩
    else ⟨m, .none, false⟩
  else
    ⟨m, .none, false⟩

/-- One step of `model.Update` on a `tea.KeyMsg` whose `msg.String()` is
`key` (gotask.go lines 237-533): the delete-confirmation dialog takes
priority, then text-entry mode, then browsing. -/
def update (saveOk : Bool) (now : Int) (m : model) (key : String) : StepResult :=
  if m.dialogType = .DeleteDialog then updateDelete saveOk m key
  else if m.inputMode then updateInput saveOk now m key
  else updateBrowse saveOk m key

/-- The board built by `initialModel`: three fixed empty columns. -/
def initialBoard : KanbanBoard :=
  ⟨[⟨1, "To Do", []⟩, ⟨2, "In Progress", []⟩, ⟨3, "Done", []⟩]⟩

/-- The model built by `initialModel` before `loadBoard` runs. -/
def initialModel : model :=
  ⟨initialBoard, 0, 0, "", false, .NormalMode, false, 0, true, .NoDialog, Option.none⟩

/-! ### Derived notions -/

/-- Total number of tasks across the whole board. -/
def totalTasks (b : KanbanBoard) : Nat :=
  (b.columns.map (fun c => c.tasks.length)).sum

/-- The cursor invariant (spec §3): three columns, `0 ≤ columnIndex < 3` and
`0 ≤ taskIndex < max 1 len` where `len` is the length of the column under the
cursor. -/
def wf (m : model) : Prop :=
  m.board.columns.length = 3 ∧
  0 ≤ m.cursorColumn ∧ m.cursorColumn < 3 ∧
  0 ≤ m.cursorTask ∧
  m.cursorTask < max 1 ((getCol m.board m.cursorColumn.toNat).tasks.length : Int)

instance : DecidablePred wf := fun m => by unfold wf; infer_instance

/-! ### Helper lemmas -/

theorem length_setCol (b : KanbanBoard) (i : Nat) (c : Column) :
    (setCol b i c).columns.length = b.columns.length := by
  simp [setCol]

theorem getCol_setCol_self (b : KanbanBoard) {i : Nat} (c : Column)
    (h : i < b.columns.length) : getCol (setCol b i c) i = c := by
  simp [getCol, setCol, List.getD_eq_getElem?_getD, List.getElem?_set_self',
    List.getElem?_eq_getElem h]

theorem getCol_setCol_ne (b : KanbanBoard) {i j : Nat} (c : Column)
    (h : i ≠ j) : getCol (setCol b i c) j = getCol b j := by
  simp [getCol, setCol, List.getD_eq_getElem?_getD, List.getElem?_set_ne h]

@[simp] theorem afterSave_board (s : Bool) (m : model) :
    (afterSave s m).board = m.board := by
  unfold afterSave; split <;> rfl

@[simp] theorem afterSave_cursorColumn (s : Bool) (m : model) :
    (afterSave s m).cursorColumn = m.cursorColumn := by
  unfold afterSave; split <;> rfl

@[simp] theorem afterSave_cursorTask (s : Bool) (m : model) :
    (afterSave s m).cursorTask = m.cursorTask := by
  unfold afterSave; split <;> rfl

@[simp] theorem afterSave_dialogType (s : Bool) (m : model) :
    (afterSave s m).dialogType = m.dialogType := by
  unfold afterSave; split <;> rfl

@[simp] theorem afterSave_inputMode (s : Bool) (m : model) :
    (afterSave s m).inputMode = m.inputMode := by
  unfold afterSave; split <;> rfl

@[simp] theorem afterSave_lastID (s : Bool) (m : model) :
    (afterSave s m).lastID = m.lastID := by
  unfold afterSave; split <;> rfl

/-- Replacing the task list of column `c` by one of equal length leaves
every column's task-list length unchanged (also when `c` is out of range,
where `List.set` is the identity). -/
theorem getCol_tasks_length_set_same (b : KanbanBoard) (c : Nat) (tasks' : List Task)
    (hl : tasks'.length = (getCol b c).tasks.length) (j : Nat) :
    (getCol (setCol b c { getCol b c with tasks := tasks' }) j).tasks.length =
      (getCol b j).tasks.length := by
  by_cases hc : c < b.columns.length
  · by_cases hj : j = c
    · subst hj
      rw [getCol_setCol_self _ _ hc]
      exact hl
    · rw [getCol_setCol_ne _ _ (fun hcj => hj hcj.symm)]
  · have hb : setCol b c { getCol b c with tasks := tasks' } = b := by
      simp [setCol, List.set_eq_of_length_le (le_of_not_lt hc)]
    rw [hb]

/-! ### Invariant preservation (C1) -/

theorem updateDelete_wf (saveOk : Bool) (m : model) (key : String) (h : wf m) :
    wf (updateDelete saveOk m key).model := by
  obtain ⟨hlen, hcc0, hcc3, hct0, hct⟩ := h
  have hs3 : m.cursorColumn.toNat < m.board.columns.length := by rw [hlen]; omega
  unfold updateDelete
  dsimp only
  split_ifs with h1 h2 h3
  · have hct' : m.cursorTask.toNat < (getCol m.board m.cursorColumn.toNat).tasks.length := by
      omega
    have hera : ((getCol m.board m.cursorColumn.toNat).tasks.eraseIdx m.cursorTask.toNat).length =
        (getCol m.board m.cursorColumn.toNat).tasks.length - 1 := by
      rw [List.length_eraseIdx]; simp [hct']
    simp [wf, length_setCol, getCol_setCol_self, hs3, hera]
    omega
  · have hct' : m.cursorTask.toNat < (getCol m.board m.cursorColumn.toNat).tasks.length := by
      omega
    have hera : ((getCol m.board m.cursorColumn.toNat).tasks.eraseIdx m.cursorTask.toNat).length =
        (getCol m.board m.cursorColumn.toNat).tasks.length - 1 := by
      rw [List.length_eraseIdx]; simp [hct']
    simp [wf, length_setCol, getCol_setCol_self, hs3, hera]
    omega
  · simp [wf, hlen]
    omega
  · simp [wf, hlen]
    omega
  · simp [wf, hlen]
    omega

theorem commitEnter_wf (saveOk : Bool) (now : Int) (m : model) (h : wf m) :
    wf (commitEnter saveOk now m).model := by
  obtain ⟨hlen, hcc0, hcc3, hct0, hct⟩ := h
  have hs3 : m.cursorColumn.toNat < m.board.columns.length := by rw [hlen]; omega
  unfold commitEnter
  dsimp only
  split
  · rename_i c t hdt het
    have hset : ((getCol m.board c).tasks.set t
        { getTask (getCol m.board c) t with title := m.textValue }).length =
        (getCol m.board c).tasks.length := by simp
    have hkey := getCol_tasks_length_set_same m.board c _ hset m.cursorColumn.toNat
    simp [wf, length_setCol, hlen, hkey]
    omega
  · split_ifs with hv
    · simp [wf, length_setCol, getCol_setCol_self, hs3]
      omega
    · simp [wf, hlen]
      omega

theorem updateInput_wf (saveOk : Bool) (now : Int) (m : model) (key : String) (h : wf m) :
    wf (updateInput saveOk now m key).model := by
  unfold updateInput
  cases hst : m.inputState <;> dsimp only <;> split_ifs
  all_goals try exact commitEnter_wf saveOk now m h
  all_goals simp only [wf] at h ⊢
  all_goals exact h

theorem updateBrowse_wf (saveOk : Bool) (m : model) (key : String) (h : wf m) :
    wf (updateBrowse saveOk m key).model := by
  obtain ⟨hlen, hcc0, hcc3, hct0, hct⟩ := h
  have hs3 : m.cursorColumn.toNat < m.board.columns.length := by rw [hlen]; omega
  unfold updateBrowse
  dsimp only
  by_cases h1 : key = "ctrl+c" ∨ key = "q"
  · rw [if_pos h1]
    split_ifs <;> (simp only [wf]; omega)
  rw [if_neg h1]
  by_cases h2 : key = "?"
  · rw [if_pos h2]; simp only [wf]; omega
  rw [if_neg h2]
  by_cases h3 : key = "a"
  · rw [if_pos h3]; simp only [wf]; omega
  rw [if_neg h3]
  by_cases h4 : key = "n"
  · rw [if_pos h4]; simp only [wf]; omega
  rw [if_neg h4]
  by_cases h5 : key = "e"
  · rw [if_pos h5]; split_ifs <;> (simp only [wf]; omega)
  rw [if_neg h5]
  by_cases h6 : key = "d"
  · rw [if_pos h6]; split_ifs <;> (simp only [wf]; omega)
  rw [if_neg h6]
  by_cases h7 : key = "up" ∨ key = "k"
  · rw [if_pos h7]; split_ifs <;> (simp only [wf]; omega)
  rw [if_neg h7]
  by_cases h8 : key = "down" ∨ key = "j"
  · rw [if_pos h8]; split_ifs <;> (simp only [wf]; omega)
  rw [if_neg h8]
  by_cases h9 : key = "left" ∨ key = "h"
  · rw [if_pos h9]; split_ifs <;> (simp only [wf]; omega)
  rw [if_neg h9]
  by_cases h10 : key = "right" ∨ key = "l"
  · rw [if_pos h10]; split_ifs <;> (simp only [wf]; omega)
  rw [if_neg h10]
  by_cases h11 : key = "[" ∨ key = "\x7b"
  · rw [if_pos h11]
    split_ifs with hg1 hg2 hcl
    all_goals try (simp only [wf]; omega)
    all_goals
      (have hct2 : m.cursorTask.toNat < (getCol m.board m.cursorColumn.toNat).tasks.length := by
         omega
       have hera : ((getCol m.board m.cursorColumn.toNat).tasks.eraseIdx m.cursorTask.toNat).length =
           (getCol m.board m.cursorColumn.toNat).tasks.length - 1 := by
         rw [List.length_eraseIdx]; simp [hct2]
       have ht2 : (m.cursorColumn - 1).toNat = m.cursorColumn.toNat - 1 := by omega
       have hd3 : m.cursorColumn.toNat - 1 < (setCol m.board m.cursorColumn.toNat { getCol m.board m.cursorColumn.toNat with tasks := (getCol m.board m.cursorColumn.toNat).tasks.eraseIdx m.cursorTask.toNat }).columns.length := by
         rw [length_setCol]; omega
       simp only [wf, afterSave_board, afterSave_cursorColumn, afterSave_cursorTask, ht2]
       rw [getCol_setCol_self _ _ hd3]
       dsimp only
       simp only [length_setCol, List.length_append, List.length_singleton]
       omega)
  rw [if_neg h11]
  by_cases h12 : key = "]" ∨ key = "\x7d"
  · rw [if_pos h12]
    split_ifs with hg1 hg2 hcl
    all_goals try (simp only [wf]; omega)
    all_goals
      (have hct2 : m.cursorTask.toNat < (getCol m.board m.cursorColumn.toNat).tasks.length := by
         omega
       have hera : ((getCol m.board m.cursorColumn.toNat).tasks.eraseIdx m.cursorTask.toNat).length =
           (getCol m.board m.cursorColumn.toNat).tasks.length - 1 := by
         rw [List.length_eraseIdx]; simp [hct2]
       have ht1 : (m.cursorColumn + 1).toNat = m.cursorColumn.toNat + 1 := by omega
       have hd3 : m.cursorColumn.toNat + 1 < (setCol m.board m.cursorColumn.toNat { getCol m.board m.cursorColumn.toNat with tasks := (getCol m.board m.cursorColumn.toNat).tasks.eraseIdx m.cursorTask.toNat }).columns.length := by
         rw [length_setCol, hlen]
         omega
       simp only [wf, afterSave_board, afterSave_cursorColumn, afterSave_cursorTask, ht1]
       rw [getCol_setCol_self _ _ hd3]
       dsimp only
       simp only [length_setCol, List.length_append, List.length_singleton]
       omega)
  rw [if_neg h12]
  simp only [wf]; omega

/-- C1: every key event — in Browsing mode, in the delete dialog and in both
text-entry sub-states — preserves the cursor invariant: afterwards
`0 ≤ columnIndex < 3` and `0 ≤ taskIndex < max 1 len` for the column under
the cursor (and the board still has exactly three columns). -/
theorem update_preserves_wf (saveOk : Bool) (now : Int) (m : model) (key : String)
    (h : wf m) : wf (update saveOk now m key).model := by
  unfold update
  split_ifs with hdlg hinp
  · exact updateDelete_wf saveOk m key h
  · exact updateInput_wf saveOk now m key h
  · exact updateBrowse_wf saveOk m key h

/-! ### Persistence: saveBoard / loadBoard (C5, C6) -/

/-- Structured JSON documents: the `encoding/json` layer is modelled at the
level of the document tree (the struct tags in the source fix the field
names). -/
inductive Json where
  | null
  | num (n : Int)
  | str (s : String)
  | arr (elements : List Json)
  | obj (fields : List (String × Json))

/-- `json.Marshal` of a `Task` (`id`, `title`, `description`, `created_at`). -/
def encodeTask (t : Task) : Json :=
  .obj [("id", .num t.id), ("title", .str t.title), ("description", .str t.description), ("created_at", .num t.createdAt)]

/-- `json.Unmarshal` of a `Task` on documents of the shape `encodeTask`
produces. -/
def decodeTask : Json → Option Task
  | .obj [("id", .num i), ("title", .str ti), ("description", .str de), ("created_at", .num ca)] =>
      some ⟨i, ti, de, ca⟩
  | _ => Option.none

/-- `json.Marshal` of a `Column` (`id`, `title`, `tasks`). -/
def encodeColumn (c : Column) : Json :=
  .obj [("id", .num c.id), ("title", .str c.title), ("tasks", .arr (c.tasks.map encodeTask))]

/-- Decoding of a task array, element by element; any failure fails the
whole decode. -/
def decodeTasks : List Json → Option (List Task)
  | [] => some []
  | j :: js =>
    match decodeTask j, decodeTasks js with
    | some t, some ts => some (t :: ts)
    | _, _ => Option.none

/-- `json.Unmarshal` of a `Column`. -/
def decodeColumn : Json → Option Column
  | .obj [("id", .num i), ("title", .str ti), ("tasks", .arr ts)] =>
      (decodeTasks ts).map (fun tasks => ⟨i, ti, tasks⟩)
  | _ => Option.none

/-- `saveBoard` (gotask.go lines 212-219): `json.MarshalIndent(m.board)`
written as a whole-file replace — modelled as the document produced. -/
def saveBoard (b : KanbanBoard) : Json :=
  .obj [("columns", .arr (b.columns.map encodeColumn))]

/-- Decoding of a column array, element by element. -/
def decodeColumns : List Json → Option (List Column)
  | [] => some []
  | j :: js =>
    match decodeColumn j, decodeColumns js with
    | some c, some cs => some (c :: cs)
    | _, _ => Option.none

/-- The `json.Unmarshal(data, &m.board)` step of `loadBoard`. -/
def unmarshalBoard : Json → Option KanbanBoard
  | .obj [("columns", .arr cs)] => (decodeColumns cs).map (fun cols => ⟨cols⟩)
  | _ => Option.none

/-- The loop in `loadBoard` (gotask.go lines 200-207) that recomputes the id
high-water mark: `if task.ID > m.lastID { m.lastID = task.ID }` over every
task, starting from the current `m.lastID`. -/
def maxTaskID (b : KanbanBoard) (lastID : Int) : Int :=
  b.columns.foldl (fun acc col => col.tasks.foldl (fun a t => if t.id > a then t.id else a) acc) lastID

/-- `loadBoard` (gotask.go lines 186-210) on a readable file: unmarshal the
document into the board, then recompute `lastID` from the data. -/
def loadBoard (data : Json) (m : model) : Option model :=
  match unmarshalBoard data with
  | some b => some { m with board := b, lastID := maxTaskID b m.lastID }
  | Option.none => Option.none

theorem decodeTask_encodeTask (t : Task) : decodeTask (encodeTask t) = some t := rfl

theorem decodeTasks_encode (l : List Task) : decodeTasks (l.map encodeTask) = some l := by
  induction l with
  | nil => rfl
  | cons x xs ih => simp [decodeTasks, decodeTask_encodeTask, ih]

theorem decodeColumn_encodeColumn (c : Column) : decodeColumn (encodeColumn c) = some c := by
  simp [encodeColumn, decodeColumn, decodeTasks_encode]

theorem decodeColumns_encode (l : List Column) : decodeColumns (l.map encodeColumn) = some l := by
  induction l with
  | nil => rfl
  | cons x xs ih => simp [decodeColumns, decodeColumn_encodeColumn, ih]

/-- C6: serializing any board with `saveBoard` and deserializing it again
with `loadBoard` restores the board exactly — every task's id, title,
description and createdAt, the order of columns and the order of tasks
within each column — while `lastID` is recomputed from the data. -/
theorem save_load_roundtrip (b : KanbanBoard) (m : model) :
    loadBoard (saveBoard b) m = some { m with board := b, lastID := maxTaskID b m.lastID } := by
  simp [loadBoard, saveBoard, unmarshalBoard, decodeColumns_encode]

/-! ### Id freshness (C5) -/

/-- Every task id on the board is at most `n`. -/
def idsLe (b : KanbanBoard) (n : Int) : Prop :=
  ∀ c ∈ b.columns, ∀ t ∈ c.tasks, t.id ≤ n

/-- The id high-water-mark invariant: every id on the board is at most the
counter. -/
def idsBounded (m : model) : Prop :=
  idsLe m.board m.lastID

theorem idsLe_mono {b : KanbanBoard} {n n' : Int} (h : idsLe b n) (hn : n ≤ n') :
    idsLe b n' :=
  fun c hc t ht => le_trans (h c hc t ht) hn

theorem idsLe_setCol {b : KanbanBoard} {n : Int} (h : idsLe b n) {i : Nat} {X : Column}
    (hX : ∀ t ∈ X.tasks, t.id ≤ n) : idsLe (setCol b i X) n := by
  intro c hc t ht
  rcases List.mem_or_eq_of_mem_set hc with h1 | rfl
  · exact h c h1 t ht
  · exact hX t ht

theorem getD_mem {α : Type} (l : List α) {i : Nat} (d : α) (h : i < l.length) :
    l.getD i d ∈ l := by
  have : l.getD i d = l[i] := by
    simp [List.getD_eq_getElem?_getD, List.getElem?_eq_getElem h]
  rw [this]
  exact List.getElem_mem h

theorem getCol_mem {b : KanbanBoard} {i : Nat} (h : i < b.columns.length) :
    getCol b i ∈ b.columns :=
  getD_mem b.columns _ h

theorem getTask_mem {c : Column} {t : Nat} (h : t < c.tasks.length) :
    getTask c t ∈ c.tasks :=
  getD_mem c.tasks _ h

/-- Relation between a pre-state `m` and a post-state `r` of one transition:
the counter never shrinks, it still bounds every id, and every task id in
`r` was already an id in `m` or is the freshly allocated `m.lastID + 1`. -/
def stepIds (m r : model) : Prop :=
  m.lastID ≤ r.lastID ∧ idsLe r.board r.lastID ∧
  ∀ c' ∈ r.board.columns, ∀ t' ∈ c'.tasks,
    (∃ c ∈ m.board.columns, ∃ t ∈ c.tasks, t'.id = t.id) ∨ t'.id = m.lastID + 1

theorem stepIds_same (m : model) (h : idsBounded m) (r : model)
    (hb : r.board = m.board) (hl : r.lastID = m.lastID) : stepIds m r := by
  refine ⟨le_of_eq hl.symm, ?_, ?_⟩
  · rw [hb, hl]; exact h
  · rw [hb]
    intro c' hc' t' ht'
    exact Or.inl ⟨c', hc', t', ht', rfl⟩

theorem lt_length_of_getCol_tasks {b : KanbanBoard} {i : Nat}
    (h : 0 < (getCol b i).tasks.length) : i < b.columns.length := by
  by_contra hn
  have hdef : getCol b i = ⟨0, "", []⟩ := by
    simp [getCol, List.getD_eq_getElem?_getD, List.getElem?_eq_none (le_of_not_lt hn)]
  rw [hdef] at h
  simp at h

/-- `stepIds` holds across a deletion: erasing an index from a valid column
creates no new ids. -/
theorem stepIds_delete (m : model) (h : idsBounded m) (s : Nat)
    (hs : s < m.board.columns.length) (i : Nat) (r : model)
    (hb : r.board = setCol m.board s { getCol m.board s with tasks := (getCol m.board s).tasks.eraseIdx i })
    (hl : r.lastID = m.lastID) : stepIds m r := by
  unfold stepIds
  rw [hb, hl]
  refine ⟨le_refl _, idsLe_setCol h ?_, ?_⟩
  · intro t ht
    exact h _ (getCol_mem hs) _ (List.mem_of_mem_eraseIdx ht)
  · intro c' hc' t' ht'
    rcases List.mem_or_eq_of_mem_set hc' with h1 | rfl
    · exact Or.inl ⟨c', h1, t', ht', rfl⟩
    · exact Or.inl ⟨getCol m.board s, getCol_mem hs, t', List.mem_of_mem_eraseIdx ht', rfl⟩

/-- `stepIds` holds across a move: both the erased source and the extended
destination only carry ids that were already on the board. -/
theorem stepIds_move (m : model) (h : idsBounded m) (s d : Nat)
    (hs : s < m.board.columns.length) (hd : d < m.board.columns.length)
    (i : Nat) (hi : i < (getCol m.board s).tasks.length) (r : model)
    (hb : r.board = setCol (setCol m.board s { getCol m.board s with tasks := (getCol m.board s).tasks.eraseIdx i }) d { getCol m.board d with tasks := (getCol m.board d).tasks ++ [getTask (getCol m.board s) i] })
    (hl : r.lastID = m.lastID) : stepIds m r := by
  unfold stepIds
  rw [hb, hl]
  refine ⟨le_refl _, idsLe_setCol (idsLe_setCol h ?_) ?_, ?_⟩
  · intro t ht
    exact h _ (getCol_mem hs) _ (List.mem_of_mem_eraseIdx ht)
  · intro t ht
    rcases List.mem_append.1 ht with h1 | h1
    · exact h _ (getCol_mem hd) _ h1
    · simp only [List.mem_singleton] at h1
      subst h1
      exact h _ (getCol_mem hs) _ (getTask_mem hi)
  · intro c' hc' t' ht'
    rcases List.mem_or_eq_of_mem_set hc' with hc1 | rfl
    · rcases List.mem_or_eq_of_mem_set hc1 with hc0 | rfl
      · exact Or.inl ⟨c', hc0, t', ht', rfl⟩
      · exact Or.inl ⟨getCol m.board s, getCol_mem hs, t', List.mem_of_mem_eraseIdx ht', rfl⟩
    · rcases List.mem_append.1 ht' with h1 | h1
      · exact Or.inl ⟨getCol m.board d, getCol_mem hd, t', h1, rfl⟩
      · simp only [List.mem_singleton] at h1
        subst h1
        exact Or.inl ⟨getCol m.board s, getCol_mem hs, _, getTask_mem hi, rfl⟩

/-- `stepIds` holds across an add-commit: the appended task carries the
fresh id and the counter advances with it. -/
theorem stepIds_add (m : model) (h : idsBounded m) (s : Nat)
    (hs : s < m.board.columns.length) (tk : Task) (htk : tk.id = m.lastID + 1) (r : model)
    (hb : r.board = setCol m.board s { getCol m.board s with tasks := (getCol m.board s).tasks ++ [tk] })
    (hl : r.lastID = m.lastID + 1) : stepIds m r := by
  unfold stepIds
  rw [hb, hl]
  refine ⟨by omega, idsLe_setCol (idsLe_mono h (by omega)) ?_, ?_⟩
  · intro t ht
    rcases List.mem_append.1 ht with h1 | h1
    · exact le_trans (h _ (getCol_mem hs) _ h1) (by omega)
    · simp only [List.mem_singleton] at h1
      subst h1
      omega
  · intro c' hc' t' ht'
    rcases List.mem_or_eq_of_mem_set hc' with h1 | rfl
    · exact Or.inl ⟨c', h1, t', ht', rfl⟩
    · rcases List.mem_append.1 ht' with h1 | h1
      · exact Or.inl ⟨getCol m.board s, getCol_mem hs, t', h1, rfl⟩
      · simp only [List.mem_singleton] at h1
        subst h1
        exact Or.inr htk

/-- `stepIds` holds across an edit-commit: retitling rewrites a task in
place and keeps its id (with `List.set` a no-op when the bound index is out
of range). -/
theorem stepIds_edit (m : model) (h : idsBounded m) (c t : Nat) (v : String) (r : model)
    (hb : r.board = setCol m.board c { getCol m.board c with tasks := (getCol m.board c).tasks.set t { getTask (getCol m.board c) t with title := v } })
    (hl : r.lastID = m.lastID) : stepIds m r := by
  unfold stepIds
  rw [hb, hl]
  by_cases hc : c < m.board.columns.length
  · by_cases ht : t < (getCol m.board c).tasks.length
    · refine ⟨le_refl _, idsLe_setCol h ?_, ?_⟩
      · intro t' ht'
        rcases List.mem_or_eq_of_mem_set ht' with h1 | rfl
        · exact h _ (getCol_mem hc) _ h1
        · exact h (getCol m.board c) (getCol_mem hc) (getTask (getCol m.board c) t) (getTask_mem ht)
      · intro c' hc' t' ht'
        rcases List.mem_or_eq_of_mem_set hc' with h1 | rfl
        · exact Or.inl ⟨c', h1, t', ht', rfl⟩
        · rcases List.mem_or_eq_of_mem_set ht' with h1 | rfl
          · exact Or.inl ⟨getCol m.board c, getCol_mem hc, t', h1, rfl⟩
          · exact Or.inl ⟨getCol m.board c, getCol_mem hc, getTask (getCol m.board c) t, getTask_mem ht, rfl⟩
    · have hset : (getCol m.board c).tasks.set t { getTask (getCol m.board c) t with title := v } = (getCol m.board c).tasks :=
        List.set_eq_of_length_le (le_of_not_lt ht)
      refine ⟨le_refl _, idsLe_setCol h ?_, ?_⟩
      · intro t' ht'
        rw [hset] at ht'
        exact h _ (getCol_mem hc) _ ht'
      · intro c' hc' t' ht'
        rcases List.mem_or_eq_of_mem_set hc' with h1 | rfl
        · exact Or.inl ⟨c', h1, t', ht', rfl⟩
        · rw [hset] at ht'
          exact Or.inl ⟨getCol m.board c, getCol_mem hc, t', ht', rfl⟩
  · have hnil : (getCol m.board c).tasks = [] := by
      simp [getCol, List.getD_eq_getElem?_getD, List.getElem?_eq_none (le_of_not_lt hc)]
    refine ⟨le_refl _, idsLe_setCol h ?_, ?_⟩
    · intro t' ht'
      rw [hnil] at ht'
      simp at ht'
    · intro c' hc' t' ht'
      rcases List.mem_or_eq_of_mem_set hc' with h1 | rfl
      · exact Or.inl ⟨c', h1, t', ht', rfl⟩
      · rw [hnil] at ht'
        simp at ht'

theorem updateDelete_ids (saveOk : Bool) (m : model) (key : String) (h : idsBounded m) :
    stepIds m (updateDelete saveOk m key).model := by
  unfold updateDelete
  dsimp only
  split_ifs with h1 h2 h3
  · exact stepIds_delete m h m.cursorColumn.toNat (lt_length_of_getCol_tasks h2)
      m.cursorTask.toNat _ (by simp) (by simp)
  · exact stepIds_delete m h m.cursorColumn.toNat (lt_length_of_getCol_tasks h2)
      m.cursorTask.toNat _ (by simp) (by simp)
  · exact stepIds_same m h _ rfl rfl
  · exact stepIds_same m h _ rfl rfl
  · exact stepIds_same m h _ rfl rfl

theorem commitEnter_ids (saveOk : Bool) (now : Int) (m : model) (hwf : wf m)
    (h : idsBounded m) : stepIds m (commitEnter saveOk now m).model := by
  obtain ⟨hlen, hcc0, hcc3, hct0, hct⟩ := hwf
  have hs3 : m.cursorColumn.toNat < m.board.columns.length := by rw [hlen]; omega
  unfold commitEnter
  dsimp only
  split
  · rename_i c t hdt het
    exact stepIds_edit m h c t m.textValue _ (by simp) (by simp)
  · split_ifs with hv
    · exact stepIds_add m h m.cursorColumn.toNat hs3
        ⟨m.lastID + 1, m.textValue, "", now⟩ rfl _ (by simp) (by simp)
    · exact stepIds_same m h _ rfl rfl

theorem updateInput_ids (saveOk : Bool) (now : Int) (m : model) (key : String)
    (hwf : wf m) (h : idsBounded m) : stepIds m (updateInput saveOk now m key).model := by
  unfold updateInput
  cases hst : m.inputState <;> dsimp only <;> split_ifs
  all_goals try exact commitEnter_ids saveOk now m hwf h
  all_goals exact stepIds_same m h _ rfl rfl

theorem updateBrowse_ids (saveOk : Bool) (m : model) (key : String)
    (hwf : wf m) (h : idsBounded m) : stepIds m (updateBrowse saveOk m key).model := by
  obtain ⟨hlen, hcc0, hcc3, hct0, hct⟩ := hwf
  have hs3 : m.cursorColumn.toNat < m.board.columns.length := by rw [hlen]; omega
  unfold updateBrowse
  dsimp only
  by_cases h1 : key = "ctrl+c" ∨ key = "q"
  · rw [if_pos h1]; split_ifs <;> exact stepIds_same m h _ rfl rfl
  rw [if_neg h1]
  by_cases h2 : key = "?"
  · rw [if_pos h2]; exact stepIds_same m h _ rfl rfl
  rw [if_neg h2]
  by_cases h3 : key = "a"
  · rw [if_pos h3]; exact stepIds_same m h _ rfl rfl
  rw [if_neg h3]
  by_cases h4 : key = "n"
  · rw [if_pos h4]; exact stepIds_same m h _ rfl rfl
  rw [if_neg h4]
  by_cases h5 : key = "e"
  · rw [if_pos h5]; split_ifs <;> exact stepIds_same m h _ rfl rfl
  rw [if_neg h5]
  by_cases h6 : key = "d"
  · rw [if_pos h6]; split_ifs <;> exact stepIds_same m h _ rfl rfl
  rw [if_neg h6]
  by_cases h7 : key = "up" ∨ key = "k"
  · rw [if_pos h7]; split_ifs <;> exact stepIds_same m h _ rfl rfl
  rw [if_neg h7]
  by_cases h8 : key = "down" ∨ key = "j"
  · rw [if_pos h8]; split_ifs <;> exact stepIds_same m h _ rfl rfl
  rw [if_neg h8]
  by_cases h9 : key = "left" ∨ key = "h"
  · rw [if_pos h9]; split_ifs <;> exact stepIds_same m h _ rfl rfl
  rw [if_neg h9]
  by_cases h10 : key = "right" ∨ key = "l"
  · rw [if_pos h10]; split_ifs <;> exact stepIds_same m h _ rfl rfl
  rw [if_neg h10]
  by_cases h11 : key = "[" ∨ key = "\x7b"
  · rw [if_pos h11]
    split_ifs with hg1 hg2 hcl
    all_goals try exact stepIds_same m h _ rfl rfl
    all_goals
      exact stepIds_move m h m.cursorColumn.toNat (m.cursorColumn.toNat - 1) hs3
        (by omega) m.cursorTask.toNat (by omega) _ (by simp) (by simp)
  rw [if_neg h11]
  by_cases h12 : key = "]" ∨ key = "\x7d"
  · rw [if_pos h12]
    split_ifs with hg1 hg2 hcl
    all_goals try exact stepIds_same m h _ rfl rfl
    all_goals
      exact stepIds_move m h m.cursorColumn.toNat (m.cursorColumn.toNat + 1) hs3
        (by rw [hlen]; omega) m.cursorTask.toNat (by omega) _ (by simp) (by simp)
  rw [if_neg h12]
  exact stepIds_same m h _ rfl rfl

/-- C5 (amended): within a running session — no reload — ids are never
reused: each transition keeps the id counter monotone, keeps every id on
the board at most the counter, and any task id present afterwards either
already occurred on the board or is the freshly allocated `lastID + 1`;
since a deleted task's id was at most the counter at deletion time, no
later add can reassign it.  After a save and a reload, however, `loadBoard`
recomputes the counter as the maximum remaining id, so the id of a deleted
task CAN be reassigned (see the counterexample). -/
theorem id_fresh_spec (saveOk : Bool) (now : Int) (m : model) (key : String)
    (hwf : wf m) (h : idsBounded m) : stepIds m (update saveOk now m key).model := by
  unfold update
  split_ifs with hdlg hinp
  · exact updateDelete_ids saveOk m key h
  · exact updateInput_ids saveOk now m key hwf h
  · exact updateBrowse_ids saveOk m key hwf h

/-! ### Sample states used by witnesses and counterexamples -/

/-- A browsing-mode model over the three default columns with the cursor on
the middle column. -/
def browseMid : model :=
  { board := initialBoard, cursorColumn := 1, cursorTask := 0, textValue := "",
    inputMode := false, inputState := .NormalMode, err := false, lastID := 0,
    showHelp := true, dialogType := .NoDialog, editingTask := Option.none }

/-! ### C10 -/

/-- C10: in Browsing mode, `left`/`h` (when `cursorColumn > 0`) and
`right`/`l` (when a column exists to the right) move the selection to the
adjacent column and always reset the task cursor to index 0. -/
theorem browse_column_switch_resets_cursor (saveOk : Bool) (now : Int) (m : model) (k : String)
    (hdlg : m.dialogType ≠ DialogType.DeleteDialog) (hin : m.inputMode = false) :
    ((k = "left" ∨ k = "h") → 0 < m.cursorColumn →
      (update saveOk now m k).model.cursorColumn = m.cursorColumn - 1 ∧
      (update saveOk now m k).model.cursorTask = 0) ∧
    ((k = "right" ∨ k = "l") → m.cursorColumn < (m.board.columns.length : Int) - 1 →
      (update saveOk now m k).model.cursorColumn = m.cursorColumn + 1 ∧
      (update saveOk now m k).model.cursorTask = 0) := by
  constructor
  · rintro (rfl | rfl) hc <;> simp [update, hdlg, hin, updateBrowse, hc]
  · rintro (rfl | rfl) hc <;> simp [update, hdlg, hin, updateBrowse, hc]

/-- Witness for C10 at a concrete state: from the middle column, `left`
lands on column 0 with task cursor 0. -/
theorem browse_column_switch_resets_cursor_witness :
    (update true 0 browseMid "left").model.cursorColumn = 0 ∧
    (update true 0 browseMid "left").model.cursorTask = 0 := by
  have h := (browse_column_switch_resets_cursor true 0 browseMid "left"
    (by decide) (by decide)).1 (Or.inl rfl) (by decide)
  simpa [browseMid] using h

/-! ### C8 -/

/-- Counterexample to C8: in a browsing state where the save fails, pressing
`q` surfaces the error but does NOT quit — no quit command is produced, so
the program does not proceed to exit as the claim states. -/
theorem quit_save_failure_cex :
    (update false 0 browseMid "q").cmd = Cmd.none ∧
    (update false 0 browseMid "q").cmd ≠ Cmd.quit ∧
    (update false 0 browseMid "q").model.err = true ∧
    (update false 0 browseMid "q").saved = true := by
  decide

/-- C8 (amended): pressing quit (`q`/`ctrl+c`) in Browsing mode attempts the
save; if the save fails the error is surfaced (`err` set) and the quit is
aborted — no quit command is issued — while a successful save quits. -/
theorem quit_save_spec (saveOk : Bool) (now : Int) (m : model) (k : String)
    (hdlg : m.dialogType ≠ DialogType.DeleteDialog) (hin : m.inputMode = false)
    (hk : k = "q" ∨ k = "ctrl+c") :
    (saveOk = true → update saveOk now m k = ⟨m, .quit, true⟩) ∧
    (saveOk = false → update saveOk now m k = ⟨{ m with err := true }, .none, true⟩) := by
  rcases hk with rfl | rfl <;>
    exact ⟨fun hs => by simp [update, hdlg, hin, updateBrowse, hs],
           fun hs => by simp [update, hdlg, hin, updateBrowse, hs]⟩

/-- Witness for C8 (amended) at a concrete state: with a succeeding save,
`q` quits. -/
theorem quit_save_spec_witness :
    update true 0 browseMid "q" = ⟨browseMid, .quit, true⟩ := by
  exact (quit_save_spec true 0 browseMid "q" (by decide) (by decide) (Or.inl rfl)).1 rfl

/-! ### List helpers -/

theorem getD_set_self {α : Type} (l : List α) {i : Nat} (a d : α)
    (h : i < l.length) : (l.set i a).getD i d = a := by
  simp [List.getD_eq_getElem?_getD, List.getElem?_set_self', List.getElem?_eq_getElem h]

theorem getD_set_ne {α : Type} (l : List α) {i j : Nat} (a d : α)
    (h : i ≠ j) : (l.set i a).getD j d = l.getD j d := by
  simp [List.getD_eq_getElem?_getD, List.getElem?_set_ne h]

/-! ### C2 -/

/-- A board whose first column holds exactly one task. -/
def oneTaskBoard : KanbanBoard :=
  ⟨[⟨1, "To Do", [⟨1, "t", "", 0⟩]⟩, ⟨2, "In Progress", []⟩, ⟨3, "Done", []⟩]⟩

/-- Browsing over `oneTaskBoard`, cursor on the task. -/
def browseOne : model :=
  { board := oneTaskBoard, cursorColumn := 0, cursorTask := 0, textValue := "",
    inputMode := false, inputState := .NormalMode, err := false, lastID := 1,
    showHelp := true, dialogType := .NoDialog, editingTask := Option.none }

/-- The delete confirmation dialog open over `oneTaskBoard`. -/
def confirmOne : model := { browseOne with dialogType := .DeleteDialog }

/-- C2: pressing `d` over a non-empty column removes nothing and opens the
delete dialog; in the dialog, `y`/`Y` deletes the task under the cursor and
persists, the negative/cancel keys return to Browsing with the board
untouched and nothing saved, and every other key changes nothing at all. -/
theorem delete_dialog_spec (saveOk : Bool) (now : Int) (m : model) (k : String) :
    (wf m → m.inputMode = false → m.dialogType = DialogType.NoDialog →
      0 < (getCol m.board m.cursorColumn.toNat).tasks.length →
      update saveOk now m "d" = ⟨{ m with dialogType := .DeleteDialog }, .none, false⟩) ∧
    (m.dialogType = DialogType.DeleteDialog →
      (((k = "y" ∨ k = "Y") → 0 < (getCol m.board m.cursorColumn.toNat).tasks.length →
        (update saveOk now m k).saved = true ∧
        (update saveOk now m k).model.board =
          setCol m.board m.cursorColumn.toNat
            { getCol m.board m.cursorColumn.toNat with
              tasks := (getCol m.board m.cursorColumn.toNat).tasks.eraseIdx m.cursorTask.toNat } ∧
        (update saveOk now m k).model.dialogType = DialogType.NoDialog) ∧
      ((k = "n" ∨ k = "N" ∨ k = "esc" ∨ k = "q" ∨ k = "ctrl+c") →
        update saveOk now m k = ⟨{ m with dialogType := .NoDialog }, .none, false⟩) ∧
      (¬(k = "y" ∨ k = "Y" ∨ k = "n" ∨ k = "N" ∨ k = "esc" ∨ k = "q" ∨ k = "ctrl+c") →
        update saveOk now m k = ⟨m, .none, false⟩))) := by
  refine ⟨fun h hin hd hne => ?_, fun hd => ⟨fun hk hne => ?_, fun hk => ?_, fun hk => ?_⟩⟩
  · obtain ⟨hlen, -⟩ := h
    simp [update, updateBrowse, hin, hd, hlen, hne]
  · rcases hk with rfl | rfl <;> simp [update, updateDelete, hd, hne, apply_ite]
  · rcases hk with rfl | rfl | rfl | rfl | rfl <;> simp [update, updateDelete, hd]
  · push_neg at hk
    obtain ⟨h1, h2, h3, h4, h5, h6, h7⟩ := hk
    simp [update, updateDelete, hd, h1, h2, h3, h4, h5, h6, h7]

/-- Witness for C2 at a concrete state: `d` opens the dialog without
deleting, and `n` closes it with the board untouched. -/
theorem delete_dialog_spec_witness :
    update true 0 browseOne "d" = ⟨{ browseOne with dialogType := .DeleteDialog }, .none, false⟩ ∧
    update true 0 confirmOne "n" = ⟨{ confirmOne with dialogType := .NoDialog }, .none, false⟩ := by
  refine ⟨(delete_dialog_spec true 0 browseOne "n").1 (by decide) (by decide) (by decide) (by decide),
    ((delete_dialog_spec true 0 confirmOne "n").2 (by decide)).2.1 (Or.inl rfl)⟩

/-! ### C9 -/

/-- The AddingNew dialog in its NormalEntry sub-state, buffer `"ab"`. -/
def entryNormal : model :=
  { board := initialBoard, cursorColumn := 0, cursorTask := 0, textValue := "ab",
    inputMode := true, inputState := .NormalMode, err := false, lastID := 0,
    showHelp := true, dialogType := .NoDialog, editingTask := Option.none }

/-- Counterexample to C9: in the NormalEntry sub-state a plain character key
is NOT ignored — the unmatched key falls through to the text input, so
pressing `x` extends the buffer from `"ab"` to `"abx"`. -/
theorem normal_entry_char_leaks_cex :
    (update true 0 entryNormal "x").model.textValue = "abx" ∧
    (update true 0 entryNormal "x").model.textValue ≠ entryNormal.textValue := by
  decide

/-- C9 (amended): in the NormalEntry sub-state the specially handled keys
are `i` (back to InsertEntry), `esc`/`ctrl+c` (discard the buffer and return
to Browsing with nothing mutated or saved), `enter` (commit), `q` (save and
quit, aborted on a failed save) and `?` (toggle help); every OTHER key is
forwarded to the text input, so a character key appends to the buffer
rather than being ignored. -/
theorem normal_entry_keys_spec (saveOk : Bool) (now : Int) (m : model) (k : String)
    (hdlg : m.dialogType ≠ DialogType.DeleteDialog) (hin : m.inputMode = true)
    (hst : m.inputState = InputMode.NormalMode) :
    (update saveOk now m "i" = ⟨{ m with inputState := .InsertMode }, .none, false⟩) ∧
    (update saveOk now m "esc" =
      ⟨{ m with inputMode := false, textValue := "", inputState := .NormalMode, editingTask := Option.none, dialogType := .NoDialog }, .none, false⟩) ∧
    (update saveOk now m "enter" = commitEnter saveOk now m) ∧
    (update saveOk now m "q" =
      if saveOk then ⟨m, .quit, true⟩ else ⟨{ m with err := true }, .none, true⟩) ∧
    (update saveOk now m "?" = ⟨{ m with showHelp := !m.showHelp }, .none, false⟩) ∧
    (¬(k = "i" ∨ k = "esc" ∨ k = "ctrl+c" ∨ k = "enter" ∨ k = "q" ∨ k = "?") →
      update saveOk now m k = ⟨{ m with textValue := textInputUpdate m.textValue k }, .none, false⟩) := by
  refine ⟨?_, ?_, ?_, ?_, ?_, fun hk => ?_⟩ <;>
    [skip; skip; skip; skip; skip; push_neg at hk] <;>
    [skip; skip; skip; skip; skip; obtain ⟨h1, h2, h3, h4, h5, h6⟩ := hk] <;>
    simp [update, updateInput, hdlg, hin, hst, *]

/-- Witness for C9 (amended) at a concrete state: `i` switches the dialog
back to the InsertEntry sub-state. -/
theorem normal_entry_keys_spec_witness :
    update true 0 entryNormal "i" = ⟨{ entryNormal with inputState := .InsertMode }, .none, false⟩ := by
  exact (normal_entry_keys_spec true 0 entryNormal "x" (by decide) (by decide) (by decide)).1

/-! ### C3 -/

/-- The AddingNew dialog with a whitespace-only buffer `" "`. -/
def addWhitespace : model :=
  { board := initialBoard, cursorColumn := 0, cursorTask := 0, textValue := " ",
    inputMode := true, inputState := .InsertMode, err := false, lastID := 0,
    showHelp := true, dialogType := .NoDialog, editingTask := Option.none }

/-- Counterexample to C3: committing an AddingNew dialog whose buffer is the
single space `" "` (whitespace-only) DOES create a task — the code only
tests for the empty string — so the first column gains a task titled `" "`
and the id counter advances from 0 to 1. -/
theorem add_whitespace_creates_task_cex :
    (update true 5 addWhitespace "enter").model.lastID = 1 ∧
    (getCol (update true 5 addWhitespace "enter").model.board 0).tasks = [⟨1, " ", "", 5⟩] := by
  decide

/-- C3 (amended): committing an AddingNew dialog whose buffer is exactly the
empty string creates no task: the whole model is unchanged except for
leaving input mode, so every column and the id counter stay as they were,
and nothing is saved.  (A whitespace-only buffer, by contrast, does create
a task.) -/
theorem add_commit_empty_noop (saveOk : Bool) (now : Int) (m : model)
    (hin : m.inputMode = true) (hd : m.dialogType = DialogType.NoDialog)
    (hv : m.textValue = "") :
    update saveOk now m "enter" =
      ⟨{ m with inputMode := false, inputState := .NormalMode }, .none, false⟩ := by
  cases hst : m.inputState <;> cases het : m.editingTask <;>
    simp [update, updateInput, commitEnter, hd, hin, hv, hst, het]

/-- Witness for C3 (amended) at a concrete state: committing with an empty
buffer leaves the initial empty board and the id counter untouched. -/
theorem add_commit_empty_noop_witness :
    update true 5 { addWhitespace with textValue := "" } "enter" =
      ⟨{ addWhitespace with textValue := "", inputMode := false, inputState := .NormalMode },
        .none, false⟩ := by
  exact add_commit_empty_noop true 5 { addWhitespace with textValue := "" }
    (by decide) (by decide) (by decide)

/-! ### Task-count bookkeeping -/

theorem sum_map_set {α : Type} (f : α → Nat) (d : α) :
    ∀ (l : List α) (i : Nat), i < l.length → ∀ a : α,
      ((l.set i a).map f).sum + f (l.getD i d) = (l.map f).sum + f a
  | x :: _, 0, _, a => by simp; omega
  | x :: xs, i + 1, h, a => by
    have ih := sum_map_set f d xs i (by simpa using h) a
    simp only [List.set, List.map_cons, List.sum_cons, List.getD_cons_succ]
    omega

/-- Replacing column `i` changes the total task count by the difference of
the two columns' lengths (stated additively). -/
theorem totalTasks_setCol (b : KanbanBoard) (i : Nat) (c : Column)
    (h : i < b.columns.length) :
    totalTasks (setCol b i c) + (getCol b i).tasks.length =
      totalTasks b + c.tasks.length := by
  simpa [totalTasks, setCol, getCol] using
    sum_map_set (fun col => col.tasks.length) ⟨0, "", []⟩ b.columns i h c

/-! ### C7 -/

/-- Evaluation of the move-right transition `]` (gotask.go lines 502-531):
the task under the cursor is removed from the source column, appended to the
right neighbour, the cursor follows to the destination's new last index, and
a save is attempted. -/
theorem update_move_right_eval (saveOk : Bool) (now : Int) (m : model)
    (hin : m.inputMode = false) (hdlg : m.dialogType ≠ DialogType.DeleteDialog)
    (hlen : m.board.columns.length = 3)
    (hne : 0 < (getCol m.board m.cursorColumn.toNat).tasks.length)
    (hc2 : m.cursorColumn < 2) (hcc0 : 0 ≤ m.cursorColumn) :
    update saveOk now m "]" =
      ⟨afterSave saveOk { m with board := setCol (setCol m.board m.cursorColumn.toNat { getCol m.board m.cursorColumn.toNat with tasks := (getCol m.board m.cursorColumn.toNat).tasks.eraseIdx m.cursorTask.toNat }) (m.cursorColumn.toNat + 1) { getCol m.board (m.cursorColumn.toNat + 1) with tasks := (getCol m.board (m.cursorColumn.toNat + 1)).tasks ++ [getTask (getCol m.board m.cursorColumn.toNat) m.cursorTask.toNat] }, cursorColumn := m.cursorColumn + 1, cursorTask := ((getCol m.board (m.cursorColumn.toNat + 1)).tasks.length : Int) }, Cmd.none, true⟩ := by
  have hguard : m.cursorColumn < (m.board.columns.length : Int) - 1 := by
    rw [hlen]; push_cast; omega
  simp [update, updateBrowse, hdlg, hin, hguard, hne, apply_ite]

/-- Evaluation of the move-left transition `[` (gotask.go lines 471-500),
symmetric to `update_move_right_eval`. -/
theorem update_move_left_eval (saveOk : Bool) (now : Int) (m : model)
    (hin : m.inputMode = false) (hdlg : m.dialogType ≠ DialogType.DeleteDialog)
    (hne : 0 < (getCol m.board m.cursorColumn.toNat).tasks.length)
    (hc0 : 0 < m.cursorColumn) :
    update saveOk now m "[" =
      ⟨afterSave saveOk { m with board := setCol (setCol m.board m.cursorColumn.toNat { getCol m.board m.cursorColumn.toNat with tasks := (getCol m.board m.cursorColumn.toNat).tasks.eraseIdx m.cursorTask.toNat }) (m.cursorColumn.toNat - 1) { getCol m.board (m.cursorColumn.toNat - 1) with tasks := (getCol m.board (m.cursorColumn.toNat - 1)).tasks ++ [getTask (getCol m.board m.cursorColumn.toNat) m.cursorTask.toNat] }, cursorColumn := m.cursorColumn - 1, cursorTask := ((getCol m.board (m.cursorColumn.toNat - 1)).tasks.length : Int) }, Cmd.none, true⟩ := by
  simp [update, updateBrowse, hdlg, hin, hc0, hne, apply_ite]

/-- Removing a task at a valid index from column `s` and appending it to a
different column `d` leaves the board's total task count unchanged. -/
theorem totalTasks_move (b : KanbanBoard) (s d : Nat) (tk : Task)
    (hs : s < b.columns.length) (hd : d < b.columns.length) (hsd : s ≠ d)
    (i : Nat) (hi : i < (getCol b s).tasks.length) :
    totalTasks (setCol (setCol b s { getCol b s with tasks := (getCol b s).tasks.eraseIdx i }) d { getCol b d with tasks := (getCol b d).tasks ++ [tk] }) = totalTasks b := by
  have e2 := totalTasks_setCol b s { getCol b s with tasks := (getCol b s).tasks.eraseIdx i } hs
  have e1 := totalTasks_setCol (setCol b s { getCol b s with tasks := (getCol b s).tasks.eraseIdx i }) d { getCol b d with tasks := (getCol b d).tasks ++ [tk] } (by rwa [length_setCol])
  rw [getCol_setCol_ne _ _ hsd] at e1
  have hera : ((getCol b s).tasks.eraseIdx i).length = (getCol b s).tasks.length - 1 := by
    rw [List.length_eraseIdx]; simp [hi]
  dsimp only at e1 e2 ⊢
  simp only [List.length_append, List.length_singleton] at e1 e2 ⊢
  omega

/-- C7: moving the task under the cursor to the adjacent column (`]` right
when `cursorColumn < 2`, `[` left when `0 < cursorColumn`, over a non-empty
source column) preserves the board's total task count, appends the task
record — id, title, description, createdAt unchanged — at the end of the
destination column, removes it from the source column, moves the cursor to
the destination column's new last index, and attempts a save. -/
theorem move_task_spec (saveOk : Bool) (now : Int) (m : model)
    (h : wf m) (hin : m.inputMode = false) (hdlg : m.dialogType ≠ DialogType.DeleteDialog)
    (hne : 0 < (getCol m.board m.cursorColumn.toNat).tasks.length) :
    (m.cursorColumn < 2 →
      totalTasks (update saveOk now m "]").model.board = totalTasks m.board ∧
      getCol (update saveOk now m "]").model.board (m.cursorColumn.toNat + 1) =
        { getCol m.board (m.cursorColumn.toNat + 1) with tasks := (getCol m.board (m.cursorColumn.toNat + 1)).tasks ++ [getTask (getCol m.board m.cursorColumn.toNat) m.cursorTask.toNat] } ∧
      getCol (update saveOk now m "]").model.board m.cursorColumn.toNat =
        { getCol m.board m.cursorColumn.toNat with tasks := (getCol m.board m.cursorColumn.toNat).tasks.eraseIdx m.cursorTask.toNat } ∧
      (update saveOk now m "]").model.cursorColumn = m.cursorColumn + 1 ∧
      (update saveOk now m "]").model.cursorTask = ((getCol m.board (m.cursorColumn.toNat + 1)).tasks.length : Int) ∧
      (update saveOk now m "]").saved = true) ∧
    (0 < m.cursorColumn →
      totalTasks (update saveOk now m "[").model.board = totalTasks m.board ∧
      getCol (update saveOk now m "[").model.board (m.cursorColumn.toNat - 1) =
        { getCol m.board (m.cursorColumn.toNat - 1) with tasks := (getCol m.board (m.cursorColumn.toNat - 1)).tasks ++ [getTask (getCol m.board m.cursorColumn.toNat) m.cursorTask.toNat] } ∧
      getCol (update saveOk now m "[").model.board m.cursorColumn.toNat =
        { getCol m.board m.cursorColumn.toNat with tasks := (getCol m.board m.cursorColumn.toNat).tasks.eraseIdx m.cursorTask.toNat } ∧
      (update saveOk now m "[").model.cursorColumn = m.cursorColumn - 1 ∧
      (update saveOk now m "[").model.cursorTask = ((getCol m.board (m.cursorColumn.toNat - 1)).tasks.length : Int) ∧
      (update saveOk now m "[").saved = true) := by
  obtain ⟨hlen, hcc0, hcc3, hct0, hct⟩ := h
  have hct' : m.cursorTask.toNat < (getCol m.board m.cursorColumn.toNat).tasks.length := by
    rw [max_eq_right (by exact_mod_cast hne)] at hct
    omega
  have hs3 : m.cursorColumn.toNat < m.board.columns.length := by rw [hlen]; omega
  constructor
  · intro hc2
    rw [update_move_right_eval saveOk now m hin hdlg hlen hne hc2 hcc0]
    have hd3 : m.cursorColumn.toNat + 1 < m.board.columns.length := by rw [hlen]; omega
    have hd3' : m.cursorColumn.toNat + 1 < (setCol m.board m.cursorColumn.toNat { getCol m.board m.cursorColumn.toNat with tasks := (getCol m.board m.cursorColumn.toNat).tasks.eraseIdx m.cursorTask.toNat }).columns.length := by
      rw [length_setCol]; exact hd3
    have hnsd : m.cursorColumn.toNat + 1 ≠ m.cursorColumn.toNat := by omega
    refine ⟨?_, ?_, ?_, by simp, by simp, rfl⟩
    · simp only [afterSave_board]
      exact totalTasks_move m.board _ _ _ hs3 hd3 (Ne.symm hnsd) _ hct'
    · simp only [afterSave_board]
      exact getCol_setCol_self _ _ hd3'
    · simp only [afterSave_board]
      rw [getCol_setCol_ne _ _ hnsd]
      exact getCol_setCol_self _ _ hs3
  · intro hc0
    rw [update_move_left_eval saveOk now m hin hdlg hne hc0]
    have hd3 : m.cursorColumn.toNat - 1 < m.board.columns.length := by rw [hlen]; omega
    have hd3' : m.cursorColumn.toNat - 1 < (setCol m.board m.cursorColumn.toNat { getCol m.board m.cursorColumn.toNat with tasks := (getCol m.board m.cursorColumn.toNat).tasks.eraseIdx m.cursorTask.toNat }).columns.length := by
      rw [length_setCol]; exact hd3
    have hnsd : m.cursorColumn.toNat - 1 ≠ m.cursorColumn.toNat := by omega
    refine ⟨?_, ?_, ?_, by simp, by simp, rfl⟩
    · simp only [afterSave_board]
      exact totalTasks_move m.board _ _ _ hs3 hd3 (Ne.symm hnsd) _ hct'
    · simp only [afterSave_board]
      exact getCol_setCol_self _ _ hd3'
    · simp only [afterSave_board]
      rw [getCol_setCol_ne _ _ hnsd]
      exact getCol_setCol_self _ _ hs3

/-- Witness for C7 at a concrete state: the single task of column 0 moves to
the end of column 1, the cursor follows, and the count is preserved. -/
theorem move_task_spec_witness :
    totalTasks (update true 0 browseOne "]").model.board = totalTasks browseOne.board ∧
    (update true 0 browseOne "]").model.cursorColumn = 1 ∧
    (update true 0 browseOne "]").model.cursorTask = 0 ∧
    getCol (update true 0 browseOne "]").model.board 1 =
      ⟨2, "In Progress", [⟨1, "t", "", 0⟩]⟩ := by
  have h := (move_task_spec true 0 browseOne (by decide) (by decide) (by decide) (by decide)).1
    (by decide)
  refine ⟨h.1, ?_, ?_, ?_⟩
  · have := h.2.2.2.1
    simpa [browseOne] using this
  · have := h.2.2.2.2.1
    simpa [browseOne, oneTaskBoard, getCol] using this
  · have := h.2.1
    simpa [browseOne, oneTaskBoard, getCol, getTask] using this

/-! ### C4 -/

/-- A board whose first column holds the single task `⟨7, "x", "desc", 3⟩`. -/
def editBoard : KanbanBoard :=
  ⟨[⟨1, "To Do", [⟨7, "x", "desc", 3⟩]⟩, ⟨2, "In Progress", []⟩, ⟨3, "Done", []⟩]⟩

/-- The Editing dialog bound to that task, with an emptied buffer. -/
def editEmptyBuf : model :=
  { board := editBoard, cursorColumn := 0, cursorTask := 0, textValue := "",
    inputMode := true, inputState := .InsertMode, err := false, lastID := 7,
    showHelp := true, dialogType := .EditDialog, editingTask := some (0, 0) }

/-- Counterexample to C4: committing an Editing dialog with an empty buffer
is NOT treated as a cancel — the code assigns the buffer unconditionally, so
the bound task's title changes from `"x"` to the empty string (id,
description and createdAt do stay unchanged). -/
theorem edit_empty_overwrites_title_cex :
    (getTask (getCol editEmptyBuf.board 0) 0).title = "x" ∧
    getTask (getCol (update true 0 editEmptyBuf "enter").model.board 0) 0 = ⟨7, "", "desc", 3⟩ ∧
    (getTask (getCol (update true 0 editEmptyBuf "enter").model.board 0) 0).title ≠ "x" := by
  decide

/-- C4 (amended): committing an Editing dialog replaces the bound task's
title by the buffer contents unconditionally — an empty buffer yields an
empty title, there is no InvalidInput cancel — while the task's id,
description and createdAt, all other tasks, and the column structure are
left unchanged; the dialog closes and a save is attempted. -/
theorem edit_commit_spec (saveOk : Bool) (now : Int) (m : model) (c t : Nat)
    (hin : m.inputMode = true) (hd : m.dialogType = DialogType.EditDialog)
    (he : m.editingTask = some (c, t)) (hc : c < m.board.columns.length)
    (ht : t < (getCol m.board c).tasks.length) :
    getTask (getCol (update saveOk now m "enter").model.board c) t =
      { getTask (getCol m.board c) t with title := m.textValue } ∧
    (∀ j, j ≠ c → getCol (update saveOk now m "enter").model.board j = getCol m.board j) ∧
    (∀ i, i ≠ t → getTask (getCol (update saveOk now m "enter").model.board c) i =
      getTask (getCol m.board c) i) ∧
    (update saveOk now m "enter").model.dialogType = DialogType.NoDialog ∧
    (update saveOk now m "enter").model.inputMode = false ∧
    (update saveOk now m "enter").saved = true := by
  have hupd : update saveOk now m "enter" = commitEnter saveOk now m := by
    cases hst : m.inputState <;> simp [update, updateInput, hd, hin, hst]
  rw [hupd]
  refine ⟨?_, fun j hj => ?_, fun i hi => ?_, ?_, ?_, ?_⟩
  · simp only [commitEnter, hd, he, afterSave_board]
    rw [getCol_setCol_self _ _ hc]
    unfold getTask
    exact getD_set_self _ _ _ ht
  · simp only [commitEnter, hd, he, afterSave_board]
    exact getCol_setCol_ne _ _ (Ne.symm hj)
  · simp only [commitEnter, hd, he, afterSave_board]
    rw [getCol_setCol_self _ _ hc]
    unfold getTask
    exact getD_set_ne _ _ _ (Ne.symm hi)
  · simp [commitEnter, hd, he]
  · simp [commitEnter, hd, he]
  · simp [commitEnter, hd, he]

/-- Witness for C4 (amended) at a concrete state: committing with buffer
`"y2"` rewrites only the bound task's title. -/
theorem edit_commit_spec_witness :
    getTask (getCol (update true 0 { editEmptyBuf with textValue := "y2" } "enter").model.board 0) 0 =
      ⟨7, "y2", "desc", 3⟩ := by
  have h := (edit_commit_spec true 0 { editEmptyBuf with textValue := "y2" } 0 0
    (by decide) (by decide) (by decide) (by decide) (by decide)).1
  simpa [editEmptyBuf, editBoard, getCol, getTask] using h

/-! ### C5: witness and counterexample -/

instance (b : KanbanBoard) (n : Int) : Decidable (idsLe b n) := by
  unfold idsLe; infer_instance

instance (m : model) : Decidable (idsBounded m) := by
  unfold idsBounded; infer_instance

/-- Witness for C5 (amended) at a concrete state: one step from a
well-formed, id-bounded state satisfies `stepIds`. -/
theorem id_fresh_spec_witness :
    stepIds browseOne (update true 0 browseOne "d").model :=
  id_fresh_spec true 0 browseOne "d" (by decide) (by decide)

/-- A browsing session holding tasks with ids 1 and 2, cursor on id 2. -/
def reuseStart : model :=
  { board := ⟨[⟨1, "To Do", [⟨1, "a", "", 0⟩, ⟨2, "b", "", 0⟩]⟩, ⟨2, "In Progress", []⟩, ⟨3, "Done", []⟩]⟩,
    cursorColumn := 0, cursorTask := 1, textValue := "", inputMode := false,
    inputState := .NormalMode, err := false, lastID := 2, showHelp := true,
    dialogType := .NoDialog, editingTask := Option.none }

/-- After `d` then `y`: task id 2 is deleted (and the delete persisted). -/
def reuseAfterDelete : model := (update true 0 (update true 0 reuseStart "d").model "y").model

/-- A fresh process start that loads the saved snapshot: `loadBoard`
recomputes `lastID` from the remaining data. -/
def reuseReloaded : model :=
  (loadBoard (saveBoard reuseAfterDelete.board) initialModel).getD initialModel

/-- Adding a task after the reload. -/
def reuseAfterAdd : model :=
  (update true 9 { reuseReloaded with inputMode := true, inputState := .InsertMode, textValue := "c" } "enter").model

/-- Counterexample to C5: the session starts with ids `[1, 2]`; deleting the
task with id 2 leaves `[1]` and the counter at 2, so in-session no reuse is
possible — but after a save and a reload the counter is recomputed from the
snapshot's maximum remaining id (1), and the next add reassigns id 2, the id
of the previously deleted task. -/
theorem id_reuse_after_reload_cex :
    ((getCol reuseStart.board 0).tasks.map Task.id) = [1, 2] ∧
    ((getCol reuseAfterDelete.board 0).tasks.map Task.id) = [1] ∧
    reuseAfterDelete.lastID = 2 ∧
    reuseReloaded.lastID = 1 ∧
    ((getCol reuseAfterAdd.board 0).tasks.map Task.id) = [1, 2] := by
  decide

/-- Witness for C1 at a concrete state: a navigation step from a concrete
well-formed state keeps the invariant. -/
theorem update_preserves_wf_witness : wf (update true 0 browseOne "down").model :=
  update_preserves_wf true 0 browseOne "down" (by decide)

end Gotask
